import Mathlib

/-!
Verification development for the claude-projects-sdk repository.

Part 1 models the subprocess line-protocol client (`Claude` in `src/claude.ts`):
its per-line event handling (`Claude.handleLine`), query issuing (`Claude.query`
and `Claude.writeMessage`) and process-exit handling (the `exit` listener
installed in `Claude.start`).

Part 2 models the incremental JSONL conversation reader (`JsonlFile.load` in
`src/common/jsonl.ts` and `Conversation` in `src/conversation.ts`).

Conventions: machine strings are Lean `String`s; JSON parsing
(`JSON.parse`), schema validation (zod `safeParse`) and serialization
(`JSON.stringify`) are host/library primitives, modelled as explicit oracle
parameters; nullable fields become `Option`; promise resolution/rejection and
emitter events become explicit output lists.
-/

set_option maxRecDepth 40000

namespace CPS

/-- One entry of a stream message's `content` array
(`StreamMessageContentSchema` in `src/common/schemas.ts`):
a `type` tag and an optional `text` field. -/
structure StreamBlock where
  type : String
  text : Option String
  deriving Repr, DecidableEq

/-- The `content` field of a stream message payload: either a plain string or
an array of blocks (`z.union([z.string(), z.array(StreamMessageContentSchema)])`). -/
inductive StreamContent where
  | str (s : String)
  | blocks (bs : List StreamBlock)
  deriving Repr, DecidableEq

/-- `StreamMessagePayloadSchema`: optional `role` and optional `content`. -/
structure StreamPayload where
  role : Option String
  content : Option StreamContent
  deriving Repr, DecidableEq

/-- A validated stream event (`ClaudeStreamMessageSchema`): required `type`,
optional `subtype`, `message`, `session_id` and `result`. -/
structure StreamMessage where
  type : String
  subtype : Option String
  message : Option StreamPayload
  session_id : Option String
  result : Option String
  deriving Repr, DecidableEq

/-- The accumulating part of the `PendingQuery` record in `src/claude.ts`
(the `resolve`/`reject` callbacks are modelled as explicit outputs). -/
structure PendingQuery where
  messages : List StreamMessage
  text : String
  deriving Repr, DecidableEq

/-- The mutable state of a `Claude` channel: `running` models
`process !== null && process.exitCode === null` (the `isRunning` getter),
`sessionId` models the nullable `_sessionId` field, `pending` the nullable
`pendingQuery` slot. -/
structure ClaudeState where
  running : Bool
  sessionId : Option String
  pending : Option PendingQuery
  deriving Repr, DecidableEq

/-- The resolution bundle (`ClaudeResponse` in `src/common/schemas.ts`);
`handleLine` always supplies the terminal event as `result`. -/
structure ClaudeResponse where
  sessionId : String
  messages : List StreamMessage
  text : String
  result : StreamMessage
  deriving Repr, DecidableEq

/-- The distinct `Error` values constructed in `src/claude.ts`. -/
inductive ClaudeError where
  | queryInProgress
  | notRunning
  | processExited (code : Option Int)
  deriving Repr, DecidableEq

/-- Rendering of the template `${code}` for `number | null` exit codes. -/
def codeStr : Option Int → String
  | none => "null"
  | some n => toString n

/-- The error message strings from `src/claude.ts`. -/
def ClaudeError.message : ClaudeError → String
  | .queryInProgress => "A query is already in progress"
  | .notRunning => "Claude process is not running"
  | .processExited code => "Process exited with code " ++ codeStr code

/-- Observable effects of the channel: emitter events (`message`, `response`,
`exit`) and the pending promise's resolution or rejection. -/
inductive ChannelEvent where
  | msgEvent (m : StreamMessage)
  | responseEvent (r : ClaudeResponse)
  | resolved (r : ClaudeResponse)
  | rejected (e : ClaudeError)
  | exitEvent (code : Option Int)
  deriving Repr, DecidableEq

/-- The text-accumulation loop of `handleLine`: for each block of an assistant
message's content array, append `block.text` when `block.type === 'text'` and
`block.text` is truthy (present and non-empty). -/
def blockStep (acc : String) (b : StreamBlock) : String :=
  if b.type = "text" then
    match b.text with
    | some t => if t = "" then acc else acc ++ t
    | none => acc
  else acc

/-- The assistant-text branch of `handleLine`: when the message is an
assistant event whose payload carries a content array, fold `blockStep` over
the blocks (`Array.isArray` is false on the string form, which is skipped). -/
def accumText (pq : PendingQuery) (m : StreamMessage) : PendingQuery :=
  if m.type = "assistant" then
    match m.message with
    | some payload =>
      match payload.content with
      | some (.blocks bs) => { pq with text := bs.foldl blockStep pq.text }
      | _ => pq
    | none => pq
  else pq

/-- The body of `Claude.handleLine` after a line has JSON-parsed and
schema-validated into `m`: line 178 assigns
`this._sessionId = message.session_id ?? null` unconditionally, the message is
emitted, and while a query is pending the message is appended to its list,
assistant text is accumulated, and a `result`-typed message resolves the
pending query with the bundle (whose `sessionId` is the just-assigned
`_sessionId ?? ''`, i.e. `m.session_id.getD ""`). -/
def handleMessage (st : ClaudeState) (m : StreamMessage) : ClaudeState × List ChannelEvent :=
  match st.pending with
  | none => ({ st with sessionId := m.session_id }, [.msgEvent m])
  | some pq =>
    let pq2 := accumText { pq with messages := pq.messages ++ [m] } m
    if m.type = "result" then
      let resp : ClaudeResponse :=
        { sessionId := m.session_id.getD ""
          messages := pq2.messages
          text := pq2.text
          result := m }
      ({ st with sessionId := m.session_id, pending := none },
        [.msgEvent m, .resolved resp, .responseEvent resp])
    else
      ({ st with sessionId := m.session_id, pending := some pq2 }, [.msgEvent m])

/-- A raw line on the process's output stream, as classified by the first part
of `handleLine`: blank (`!line.trim()`), not JSON or failing schema
validation, or a validated stream message. -/
inductive LineInput where
  | blank
  | invalid
  | valid (m : StreamMessage)
  deriving Repr, DecidableEq

/-- `Claude.handleLine`: blank, unparseable and invalid lines are ignored;
valid messages are processed by `handleMessage`. -/
def handleLine (st : ClaudeState) : LineInput → ClaudeState × List ChannelEvent
  | .valid m => handleMessage st m
  | _ => (st, [])

/-- A sequence of validated messages processed in order, accumulating the
emitted events. -/
def runMessages : ClaudeState → List StreamMessage → ClaudeState × List ChannelEvent
  | st, [] => (st, [])
  | st, m :: ms =>
    let r := handleMessage st m
    let rest := runMessages r.1 ms
    (rest.1, r.2 ++ rest.2)

/-- The request envelope written by `Claude.writeMessage`
(`{type:'user', message:{role:'user', content: prompt}}`, serialized and
newline-terminated by the host). -/
structure UserEnvelope where
  prompt : String
  deriving Repr, DecidableEq

/-- `Claude.writeMessage`: throws `'Claude process is not running'` when the
process is not alive, otherwise writes the envelope. -/
def writeMessage (running : Bool) (prompt : String) : Except ClaudeError UserEnvelope :=
  if running then .ok { prompt := prompt } else .error ClaudeError.notRunning

/-- Outcome of a `query` call: the returned promise is left pending
(`accepted`) or rejects immediately with an error. -/
inductive QueryOutcome where
  | accepted
  | rejectedError (e : ClaudeError)
  deriving Repr, DecidableEq

/-- `Claude.query`: throws `'A query is already in progress'` if a query is
pending (state untouched); otherwise installs a fresh `PendingQuery` and calls
`writeMessage` — on a write error the catch block clears `pendingQuery` and
rejects, so the net state is unchanged. The third component lists the
envelopes actually written. -/
def query (st : ClaudeState) (prompt : String) :
    ClaudeState × QueryOutcome × List UserEnvelope :=
  if st.pending.isSome then (st, .rejectedError ClaudeError.queryInProgress, [])
  else
    match writeMessage st.running prompt with
    | .ok env => ({ st with pending := some { messages := [], text := "" } }, .accepted, [env])
    | .error e => (st, .rejectedError e, [])

/-- The `exit` listener installed in `Claude.start`: the process handle is
cleared (so `isRunning` is false), a pending query is rejected with
`Process exited with code ${code}` and the slot cleared, then `exit` is
emitted. -/
def onExit (st : ClaudeState) (code : Option Int) : ClaudeState × List ChannelEvent :=
  match st.pending with
  | some _ =>
    ({ running := false, sessionId := st.sessionId, pending := none },
      [.rejected (ClaudeError.processExited code), .exitEvent code])
  | none =>
    ({ running := false, sessionId := st.sessionId, pending := none }, [.exitEvent code])

/-- A minimal valid stream event with the given `type` tag and optional
session identifier, all other optional fields absent. -/
def basicMsg (ty : String) (sid : Option String) : StreamMessage :=
  { type := ty, subtype := none, message := none, session_id := sid, result := none }

/-- The assistant event `{"type":"assistant","message":{"content":[{"type":"text","text":t}]}}`
from the spec's end-to-end scenario. -/
def assistantTextMsg (t : String) : StreamMessage :=
  { type := "assistant"
    subtype := none
    message := some { role := none, content := some (.blocks [{ type := "text", text := some t }]) }
    session_id := none
    result := none }

/-- C1 counterexample: starting from a fresh channel, a valid event carrying
session identifier "S1" latches it, but a subsequent valid event lacking the
field resets the latched value to the unset state (`none`), because
`handleLine` assigns `this._sessionId = message.session_id ?? null`
unconditionally. The claim says the latched value would remain `some "S1"`. -/
theorem C1_counterexample :
    ((handleMessage { running := true, sessionId := none, pending := none }
        (basicMsg "system" (some "S1"))).1).sessionId = some "S1"
    ∧ ((handleMessage
          (handleMessage { running := true, sessionId := none, pending := none }
            (basicMsg "system" (some "S1"))).1
          (basicMsg "assistant" none)).1).sessionId = none := by
  constructor <;> rfl

/-- C1 (amended): every valid event received by the channel sets the stored
session identifier to exactly the event's own `session_id` field — the value
it carries when present, and the unset state when absent (last observation
wins; the value is not latched). -/
theorem C1_session_tracks_last_event (st : ClaudeState) (m : StreamMessage) :
    ((handleMessage st m).1).sessionId = m.session_id := by
  unfold handleMessage
  cases st.pending with
  | none => rfl
  | some pq => by_cases ht : m.type = "result" <;> simp [ht]

/-- The response bundle produced in the spec's end-to-end channel scenario. -/
def c2resp : ClaudeResponse :=
  { sessionId := "S9"
    messages := [assistantTextMsg "hel", assistantTextMsg "lo", basicMsg "result" (some "S9")]
    text := "hello"
    result := basicMsg "result" (some "S9") }

/-- C2: with one query pending, receiving assistant events with text fragments
"hel" then "lo" and then a `result` event carrying session identifier "S9"
resolves the pending query with accumulated text "hello" and session
identifier "S9", and leaves the channel with no pending query. -/
theorem C2_end_to_end (running : Bool) (sid : Option String) :
    runMessages { running := running, sessionId := sid, pending := some { messages := [], text := "" } }
        [assistantTextMsg "hel", assistantTextMsg "lo", basicMsg "result" (some "S9")]
      = ({ running := running, sessionId := some "S9", pending := none },
         [ChannelEvent.msgEvent (assistantTextMsg "hel"),
          ChannelEvent.msgEvent (assistantTextMsg "lo"),
          ChannelEvent.msgEvent (basicMsg "result" (some "S9")),
          ChannelEvent.resolved c2resp,
          ChannelEvent.responseEvent c2resp]) := by
  rfl

/-- C5: while a query is pending, a second `query` call is rejected with the
"A query is already in progress" error, writing nothing and leaving the state
(including the pending request) unchanged; and the pending request still
resolves normally when a terminal `result` event later arrives. -/
theorem C5_second_query_rejected (st : ClaudeState) (pq : PendingQuery) (p : String)
    (h : st.pending = some pq) :
    query st p = (st, .rejectedError ClaudeError.queryInProgress, [])
    ∧ ∀ m : StreamMessage, m.type = "result" →
        (handleMessage st m).1.pending = none
        ∧ ∃ resp : ClaudeResponse,
            (handleMessage st m).2
              = [ChannelEvent.msgEvent m, ChannelEvent.resolved resp,
                 ChannelEvent.responseEvent resp] := by
  constructor
  · unfold query
    simp [h]
  · intro m hm
    unfold handleMessage
    rw [h]
    simp [hm]

/-- A concrete busy channel state: running, no session observed, one fresh
pending query with accumulated text "t". -/
def busyState : ClaudeState :=
  { running := true, sessionId := none, pending := some { messages := [], text := "t" } }

/-- C5 witness: `C5_second_query_rejected` at the concrete busy state. -/
theorem C5_witness :
    busyState.pending = some { messages := [], text := "t" }
    ∧ (query busyState "p" = (busyState, .rejectedError ClaudeError.queryInProgress, [])
      ∧ ∀ m : StreamMessage, m.type = "result" →
          (handleMessage busyState m).1.pending = none
          ∧ ∃ resp : ClaudeResponse,
              (handleMessage busyState m).2
                = [ChannelEvent.msgEvent m, ChannelEvent.resolved resp,
                   ChannelEvent.responseEvent resp]) :=
  ⟨rfl, C5_second_query_rejected _ _ "p" rfl⟩

/-- C6: if the process exits while a query is pending, the pending query is
rejected with the exit error (whose message references the exit code), the
pending slot is cleared, and any subsequent `query` call fails fast with the
not-running error without writing any envelope to the process input. -/
theorem C6_exit_rejects_pending (st : ClaudeState) (pq : PendingQuery) (code : Option Int)
    (h : st.pending = some pq) :
    onExit st code
      = ({ running := false, sessionId := st.sessionId, pending := none },
         [ChannelEvent.rejected (ClaudeError.processExited code), ChannelEvent.exitEvent code])
    ∧ (ClaudeError.processExited code).message = "Process exited with code " ++ codeStr code
    ∧ ∀ p : String,
        query (onExit st code).1 p
          = ((onExit st code).1, .rejectedError ClaudeError.notRunning, []) := by
  refine ⟨by unfold onExit; rw [h], rfl, ?_⟩
  intro p
  unfold onExit
  rw [h]
  rfl

/-- A concrete busy channel state with a latched session identifier. -/
def busyStateS : ClaudeState :=
  { running := true, sessionId := some "S", pending := some { messages := [], text := "" } }

/-- C6 witness: `C6_exit_rejects_pending` at the concrete busy state and exit
code 1. -/
theorem C6_witness :
    busyStateS.pending = some { messages := [], text := "" }
    ∧ (onExit busyStateS (some 1)
        = ({ running := false, sessionId := some "S", pending := none },
           [ChannelEvent.rejected (ClaudeError.processExited (some 1)),
            ChannelEvent.exitEvent (some 1)])
      ∧ (ClaudeError.processExited (some 1)).message
          = "Process exited with code " ++ codeStr (some 1)
      ∧ ∀ p : String,
          query (onExit busyStateS (some 1)).1 p
            = ((onExit busyStateS (some 1)).1, .rejectedError ClaudeError.notRunning, [])) :=
  ⟨rfl, C6_exit_rejects_pending _ _ (some 1) rfl⟩

/-- C9: calling `query` on a channel whose process is not running, with no
query pending, rejects with the not-running error and leaves the state
unchanged (the transiently installed pending request is cleared by the catch
block before rejection), so a second `query` call fails with the same
not-running error rather than the query-in-progress error. -/
theorem C9_not_running_query (st : ClaudeState) (p q : String)
    (hp : st.pending = none) (hr : st.running = false) :
    query st p = (st, .rejectedError ClaudeError.notRunning, [])
    ∧ query (query st p).1 q = (st, .rejectedError ClaudeError.notRunning, []) := by
  have h1 : query st p = (st, .rejectedError ClaudeError.notRunning, []) := by
    unfold query writeMessage
    simp [hp, hr]
  exact ⟨h1, by rw [h1]; unfold query writeMessage; simp [hp, hr]⟩

/-- C9 witness: `C9_not_running_query` at a concrete dead idle channel. -/
theorem C9_witness :
    ({ running := false, sessionId := none, pending := none } : ClaudeState).pending = none
    ∧ ({ running := false, sessionId := none, pending := none } : ClaudeState).running = false
    ∧ (query { running := false, sessionId := none, pending := none } "a"
        = ({ running := false, sessionId := none, pending := none },
           .rejectedError ClaudeError.notRunning, [])
      ∧ query (query { running := false, sessionId := none, pending := none } "a").1 "b"
          = ({ running := false, sessionId := none, pending := none },
             .rejectedError ClaudeError.notRunning, [])) :=
  ⟨rfl, rfl, C9_not_running_query _ "a" "b" rfl rfl⟩

/-- Any response resolved by a single `handleMessage` step has as its
`sessionId` the resolving event's `session_id` field (or `""` when absent),
since line 178 overwrites `_sessionId` before the bundle is built. -/
theorem resolved_sessionId (st : ClaudeState) (m : StreamMessage) (r : ClaudeResponse)
    (hm : ChannelEvent.resolved r ∈ (handleMessage st m).2) :
    r.sessionId = m.session_id.getD "" := by
  cases hp : st.pending with
  | none => simp [handleMessage, hp] at hm
  | some pq =>
    by_cases ht : m.type = "result"
    · simp [handleMessage, hp, ht] at hm
      rw [hm]
    · simp [handleMessage, hp, ht] at hm

/-- C10: whenever a pending query resolves on a run of valid events none of
which carries a session identifier, the resolved response's `sessionId` equals
the empty string (the field is a plain string in the bundle, never null or
absent). -/
theorem C10_empty_sessionId (st : ClaudeState) (ms : List StreamMessage) (r : ClaudeResponse)
    (hall : ∀ m ∈ ms, m.session_id = none)
    (hr : ChannelEvent.resolved r ∈ (runMessages st ms).2) :
    r.sessionId = "" := by
  induction ms generalizing st with
  | nil => simp [runMessages] at hr
  | cons m ms ih =>
    simp only [runMessages, List.mem_append] at hr
    rcases hr with hr | hr
    · have h := resolved_sessionId st m r hr
      rw [hall m (by simp)] at h
      exact h
    · exact ih _ (fun x hx => hall x (List.mem_cons_of_mem m hx)) hr

/-- A busy channel that had previously latched session identifier "old". -/
def busyStateOld : ClaudeState :=
  { running := true, sessionId := some "old", pending := some { messages := [], text := "" } }

/-- The response resolved when `busyStateOld` receives a bare `result` event. -/
def c10resp : ClaudeResponse :=
  { sessionId := ""
    messages := [basicMsg "result" none]
    text := ""
    result := basicMsg "result" none }

/-- C10 witness: a single `result` event without a session identifier resolves
the pending query with `sessionId = ""`. -/
theorem C10_witness :
    (∀ m ∈ [basicMsg "result" none], m.session_id = none)
    ∧ ChannelEvent.resolved c10resp
        ∈ (runMessages busyStateOld [basicMsg "result" none]).2
    ∧ c10resp.sessionId = "" :=
  ⟨by decide, by decide,
    C10_empty_sessionId busyStateOld [basicMsg "result" none] c10resp (by decide) (by decide)⟩

/-!
Part 2: the incremental JSONL conversation reader (`JsonlFile.load` in
`src/common/jsonl.ts`, `Conversation` in `src/conversation.ts`).

File contents are modelled as character lists; `stat.size`, the read-stream
`start` offset and `Buffer.byteLength` are modelled as character counts (these
agree with byte counts on single-byte content; the offset arithmetic the code
performs is measure-independent). `JSON.parse`, `MessageSchema.safeParse` and
`JSON.stringify` are host/library primitives, passed in as an explicit oracle
(`ConvModel`), together with the record accessors `Conversation` reads.
-/

/-- Raw file contents / raw lines. -/
abbrev FileContent := List Char

/-- The oracle bundle for a `Conversation` over decoded-JSON type `J` and
record type `R`: `jsonDecode` models `JSON.parse` (`none` = exception),
`validate` models `MessageSchema.safeParse`, `stringify` models
`JSON.stringify`, `isSnapshot` models `type === 'file-history-snapshot'`, and
`uuid`/`messageId`/`sessionId`/`isSidechain` are the record fields read by
`Conversation`. -/
structure ConvModel (J R : Type) where
  jsonDecode : FileContent → Option J
  validate : J → Option R
  stringify : R → FileContent
  isSnapshot : R → Bool
  uuid : R → String
  messageId : R → String
  sessionId : R → String
  isSidechain : R → Bool

/-- Prepend a character onto the first line of a line decomposition, starting
a fresh line when there is none. -/
def consHead (c : Char) : List FileContent → List FileContent
  | [] => [[c]]
  | l :: ls => (c :: l) :: ls

/-- The line decomposition performed by `readline` over the stream: lines are
separated by newline characters, a final unterminated fragment is still
emitted as a line, and a terminating newline does not produce an extra empty
line. -/
def splitLines : FileContent → List FileContent
  | [] => []
  | c :: cs => if c = '\n' then [] :: splitLines cs else consHead c (splitLines cs)

/-- The mutable state of a `Conversation`: parsed records (`messages`), the
byte cursor (`byteOffset`) and the latched `_sessionId`/`_isSidechain`. -/
structure ConvState (R : Type) where
  messages : List R
  byteOffset : Nat
  sessionId : Option String
  isSidechain : Option Bool
  deriving Repr, DecidableEq

/-- Side-channel notifications: `parseError` is emitted by `JsonlFile.load`
for a line that is not valid JSON (it carries the raw line; the accompanying
host exception object is not modelled); `newMessage` is emitted by
`processObject` for each newly validated record when `emitNewMessages` is
set. -/
inductive Signal (R : Type) where
  | parseError (line : FileContent)
  | newMessage (r : R)
  deriving Repr, DecidableEq

variable {J R : Type}

/-- `Conversation.processObject`: validate the decoded object; on success
append the record and, when no session identifier is latched yet and the
record is not a snapshot, latch `sessionId`/`isSidechain` from it. Validation
failure changes nothing (silent drop). -/
def processObject (P : ConvModel J R) (st : ConvState R) (j : J) : ConvState R :=
  match P.validate j with
  | none => st
  | some r =>
    if st.sessionId.isNone && !(P.isSnapshot r) then
      { st with
          messages := st.messages ++ [r]
          sessionId := some (P.sessionId r)
          isSidechain := some (P.isSidechain r) }
    else
      { st with messages := st.messages ++ [r] }

/-- One iteration of the `for await (const line of rl)` loop in
`JsonlFile.load`, state part: a line failing `JSON.parse` leaves the state
unchanged (the parse error is a side signal), otherwise `processObject` runs.
(`Conversation.processObject` never returns `true`, so the `break` is dead.) -/
def processLine (P : ConvModel J R) (st : ConvState R) (l : FileContent) : ConvState R :=
  match P.jsonDecode l with
  | none => st
  | some j => processObject P st j

/-- The state after the line loop has consumed the given lines. -/
def runState (P : ConvModel J R) : ConvState R → List FileContent → ConvState R
  | st, [] => st
  | st, l :: ls => runState P (processLine P st l) ls

/-- The side signals produced while consuming the given lines: one
`parseError` per non-JSON line and — when `emitNewMessages` is set — one
`newMessage` per validated record. The signals do not depend on the state. -/
def signalsOf (P : ConvModel J R) (emitNew : Bool) : List FileContent → List (Signal R)
  | [] => []
  | l :: ls =>
    (match P.jsonDecode l with
      | none => [Signal.parseError l]
      | some j =>
        match P.validate j with
        | none => []
        | some r => if emitNew then [Signal.newMessage r] else []) ++ signalsOf P emitNew ls

/-- A `Conversation` as constructed, before any load: no records, cursor 0,
nothing latched. -/
def convInit (R : Type) : ConvState R :=
  { messages := [], byteOffset := 0, sessionId := none, isSidechain := none }

/-- `Conversation.load`: reset records and latched identifiers, stream the
whole file through the line loop (with `emitNewMessages` unset), then pin the
cursor to the file size. The fields `load` reads are all reset first, so the
result does not depend on the prior state and the prior state is omitted. -/
def load (P : ConvModel J R) (c : FileContent) : ConvState R × List (Signal R) :=
  let st := runState P (convInit R) (splitLines c)
  ({ st with byteOffset := c.length }, signalsOf P false (splitLines c))

/-- `Conversation.loadNewMessages` (refresh): when the file has not grown past
the cursor, do nothing; otherwise stream the suffix starting at the cursor
with `emitNewMessages` set and advance the cursor to the new size. -/
def refresh (P : ConvModel J R) (st : ConvState R) (c : FileContent) :
    ConvState R × List (Signal R) :=
  if c.length ≤ st.byteOffset then (st, [])
  else
    ({ runState P st (splitLines (c.drop st.byteOffset)) with byteOffset := c.length },
      signalsOf P true (splitLines (c.drop st.byteOffset)))

/-- `Array.prototype.join('\n')` on serialized records. -/
def joinNL : List FileContent → FileContent
  | [] => []
  | [x] => x
  | x :: xs => x ++ '\n' :: joinNL xs

/-- `Array.prototype.findIndex`: index of the first element satisfying the
predicate. -/
def findIndex (p : R → Bool) : List R → Option Nat
  | [] => none
  | x :: xs => if p x then some 0 else (findIndex p xs).map (· + 1)

/-- The identifier comparison of `Conversation.deleteMessage`/`getMessage`:
snapshots match on `messageId`, other records on `uuid`. -/
def matchesId (P : ConvModel J R) (id : String) (m : R) : Bool :=
  if P.isSnapshot m then P.messageId m == id else P.uuid m == id

/-- The content a successful `deleteMessage` writes to the backing file:
the remaining records serialized and newline-joined, plus a terminating
newline when nonempty (`content ? content + '\n' : ''`). -/
def writtenContent (P : ConvModel J R) (msgs : List R) : FileContent :=
  let content := joinNL (msgs.map P.stringify)
  if content.isEmpty then [] else content ++ ['\n']

/-- `Conversation.deleteMessage`: find the first record whose identifier
matches; when absent return `false` without touching the file; when present
splice it out, rewrite the file and set the cursor to the byte length of what
was written. The third component is the content written to the backing file
(`none` = no write performed). -/
def deleteMessage (P : ConvModel J R) (st : ConvState R) (id : String) :
    Bool × ConvState R × Option FileContent :=
  match findIndex (matchesId P id) st.messages with
  | none => (false, st, none)
  | some i =>
    let msgs := st.messages.eraseIdx i
    let written := writtenContent P msgs
    (true, { st with messages := msgs, byteOffset := written.length }, some written)

/-- External operations on a watched log file: a byte append by the writer, or
a change notification that triggers `loadNewMessages`. -/
inductive FileOp where
  | append (chunk : FileContent)
  | refresh
  deriving Repr, DecidableEq

/-- Apply one file operation to the (file, reader) pair. -/
def applyOp (P : ConvModel J R) : FileContent × ConvState R → FileOp → FileContent × ConvState R
  | (c, st), .append chunk => (c ++ chunk, st)
  | (c, st), .refresh => (c, (refresh P st c).1)

/-- The (file, reader) pair after a full `load` of the initial contents
followed by the given operation sequence. -/
def runOps (P : ConvModel J R) (c0 : FileContent) (ops : List FileOp) :
    FileContent × ConvState R :=
  ops.foldl (applyOp P) (c0, (load P c0).1)

/-- A chunk ends at a line boundary: it is empty or ends with a newline. -/
def boundary (c : FileContent) : Prop :=
  c = [] ∨ c.getLast? = some '\n'

instance (c : FileContent) : Decidable (boundary c) := by
  unfold boundary
  infer_instance

/-- `consHead` never produces an empty decomposition. -/
theorem consHead_ne_nil (c : Char) (ls : List FileContent) : consHead c ls ≠ [] := by
  cases ls <;> simp [consHead]

/-- A nonempty content has a nonempty line decomposition. -/
theorem splitLines_ne_nil {c : FileContent} (h : c ≠ []) : splitLines c ≠ [] := by
  cases c with
  | nil => exact absurd rfl h
  | cons ch cs =>
    by_cases hc : ch = '\n' <;> simp [splitLines, hc, consHead_ne_nil]

/-- `consHead` distributes over appending further lines to a nonempty
decomposition. -/
theorem consHead_append (c : Char) {ls : List FileContent} (ms : List FileContent)
    (h : ls ≠ []) : consHead c (ls ++ ms) = consHead c ls ++ ms := by
  cases ls with
  | nil => exact absurd rfl h
  | cons l ls => rfl

/-- Unfolding step of `splitLines` at a newline. -/
theorem splitLines_cons_newline (cs : FileContent) :
    splitLines ('\n' :: cs) = [] :: splitLines cs := by
  rw [splitLines, if_pos rfl]

/-- Unfolding step of `splitLines` at a non-newline character. -/
theorem splitLines_cons_other {c : Char} (h : c ≠ '\n') (cs : FileContent) :
    splitLines (c :: cs) = consHead c (splitLines cs) := by
  rw [splitLines, if_neg h]

/-- Splitting distributes over concatenation when the first part ends at a
line boundary. -/
theorem splitLines_append {a : FileContent} (b : FileContent) (h : boundary a) :
    splitLines (a ++ b) = splitLines a ++ splitLines b := by
  induction a with
  | nil => simp [splitLines]
  | cons ch cs ih =>
    rcases h with h | h
    · cases h
    · cases cs with
      | nil =>
        simp only [List.getLast?_singleton, Option.some.injEq] at h
        subst h
        rw [List.singleton_append, splitLines_cons_newline]
        rfl
      | cons c2 cs2 =>
        have hb : boundary (c2 :: cs2) := Or.inr ((List.getLast?_cons_cons ..).symm.trans h)
        by_cases hc : ch = '\n'
        · subst hc
          rw [List.cons_append, splitLines_cons_newline, splitLines_cons_newline, ih hb,
            List.cons_append]
        · rw [List.cons_append, splitLines_cons_other hc, splitLines_cons_other hc, ih hb,
            consHead_append _ _ (splitLines_ne_nil (List.cons_ne_nil c2 cs2))]

/-- Concatenations of boundary chunks end at a line boundary. -/
theorem boundary_append {a b : FileContent} (ha : boundary a) (hb : boundary b) :
    boundary (a ++ b) := by
  rcases hb with hb | hb
  · subst hb
    simpa using ha
  · have hne : b ≠ [] := by
      intro he
      subst he
      simp at hb
    exact Or.inr ((List.getLast?_append_of_ne_nil a hne).trans hb)

/-- `processLine` never moves the cursor. -/
theorem processLine_byteOffset (P : ConvModel J R) (st : ConvState R) (l : FileContent) :
    (processLine P st l).byteOffset = st.byteOffset := by
  unfold processLine processObject
  split
  · rfl
  · split
    · rfl
    · split <;> rfl

/-- `processLine` acts only on the non-cursor fields: overriding the cursor
before or after a step is the same. -/
theorem processLine_setOffset (P : ConvModel J R) (st : ConvState R) (l : FileContent)
    (b : Nat) :
    processLine P { st with byteOffset := b } l = { processLine P st l with byteOffset := b } := by
  obtain ⟨ms, off, sid, side⟩ := st
  unfold processLine processObject
  split
  · rfl
  · split
    · rfl
    · split <;> rfl

/-- The line loop consumes concatenated line lists sequentially. -/
theorem runState_append (P : ConvModel J R) (st : ConvState R) (ls ms : List FileContent) :
    runState P st (ls ++ ms) = runState P (runState P st ls) ms := by
  induction ls generalizing st with
  | nil => rfl
  | cons l ls ih => exact ih (processLine P st l)

/-- `runState` commutes with overriding the cursor. -/
theorem runState_setOffset (P : ConvModel J R) (st : ConvState R) (ls : List FileContent)
    (b : Nat) :
    runState P { st with byteOffset := b } ls = { runState P st ls with byteOffset := b } := by
  induction ls generalizing st with
  | nil => rfl
  | cons l ls ih =>
    show runState P (processLine P { st with byteOffset := b } l) ls = _
    rw [processLine_setOffset]
    exact ih (processLine P st l)

/-- Key refinement step: refreshing a state obtained by a full load of a
boundary-terminated prefix, after the file grew by `rest`, produces exactly
the state of a full load of the whole contents, together with one `newMessage`
signal per newly validated record of `rest`. -/
theorem refresh_load (P : ConvModel J R) (done rest : FileContent) (hb : boundary done) :
    refresh P (load P done).1 (done ++ rest)
      = ((load P (done ++ rest)).1, signalsOf P true (splitLines rest)) := by
  by_cases hrest : rest = []
  · subst hrest
    simp [refresh, load, signalsOf]
  · have hlt : ¬((done ++ rest).length ≤ (load P done).1.byteOffset) := by
      simp only [load, List.length_append]
      exact Nat.not_le.mpr (Nat.lt_add_of_pos_right (List.length_pos.mpr hrest))
    have hdrop : (done ++ rest).drop (load P done).1.byteOffset = rest := by
      simp only [load]
      exact List.drop_left done rest
    unfold refresh
    rw [if_neg hlt, hdrop]
    have hsplit : splitLines (done ++ rest) = splitLines done ++ splitLines rest :=
      splitLines_append rest hb
    have hstate :
        runState P (load P done).1 (splitLines rest)
          = { runState P (convInit R) (splitLines (done ++ rest)) with
                byteOffset := done.length } := by
      rw [hsplit, runState_append]
      simp only [load]
      rw [runState_setOffset]
    rw [hstate]
    simp [load, List.length_append]

/-- Run invariant for `runOps`: the file is a concatenation of
boundary-terminated chunks, and the reader state is exactly a full load of
some boundary-terminated prefix of it. -/
def Inv (P : ConvModel J R) (c : FileContent) (st : ConvState R) : Prop :=
  boundary c ∧ ∃ done rest, c = done ++ rest ∧ boundary done ∧ st = (load P done).1

/-- `applyOp` preserves the run invariant when appended chunks end at line
boundaries. -/
theorem inv_applyOp (P : ConvModel J R) {c : FileContent} {st : ConvState R} (op : FileOp)
    (h : Inv P c st) (hop : ∀ ch, op = FileOp.append ch → boundary ch) :
    Inv P (applyOp P (c, st) op).1 (applyOp P (c, st) op).2 := by
  obtain ⟨hc, done, rest, hcdr, hdone, hst⟩ := h
  cases op with
  | append chunk =>
    have hch : boundary chunk := hop chunk rfl
    refine ⟨boundary_append hc hch, done, rest ++ chunk, ?_, hdone, hst⟩
    show c ++ chunk = done ++ (rest ++ chunk)
    rw [hcdr, List.append_assoc]
  | refresh =>
    refine ⟨hc, c, [], (List.append_nil c).symm, hc, ?_⟩
    show (refresh P st c).1 = (load P c).1
    rw [hst, hcdr, refresh_load P done rest hdone]

/-- Folding boundary-respecting operations preserves the run invariant. -/
theorem inv_foldl (P : ConvModel J R) (ops : List FileOp) :
    ∀ (c : FileContent) (st : ConvState R), Inv P c st →
      (∀ ch, FileOp.append ch ∈ ops → boundary ch) →
      Inv P (ops.foldl (applyOp P) (c, st)).1 (ops.foldl (applyOp P) (c, st)).2 := by
  induction ops with
  | nil => exact fun c st h _ => h
  | cons op ops ih =>
    intro c st h hops
    have h1 := inv_applyOp P op h
      (fun ch he => hops ch (by subst he; exact List.mem_cons_self _ _))
    exact ih (applyOp P (c, st) op).1 (applyOp P (c, st) op).2 h1
      (fun ch hm => hops ch (List.mem_cons_of_mem op hm))

/-- The run invariant holds after any boundary-respecting operation
sequence. -/
theorem inv_runOps (P : ConvModel J R) (c0 : FileContent) (ops : List FileOp)
    (h0 : boundary c0) (hops : ∀ ch, FileOp.append ch ∈ ops → boundary ch) :
    Inv P (runOps P c0 ops).1 (runOps P c0 ops).2 :=
  inv_foldl P ops c0 (load P c0).1 ⟨h0, c0, [], (List.append_nil c0).symm, h0, rfl⟩ hops

/-- C3 (amended): provided the initial contents and every appended chunk end
at a line boundary, a refresh at the end of any append/refresh sequence makes
the in-memory record sequence equal that of a single full parse of the final
contents; and a refresh performed immediately after a full parse with no
intervening writes appends no records, emits no signals, and leaves the state
(including the cursor) unchanged. -/
theorem C3_refresh_convergence (P : ConvModel J R) (c0 : FileContent) (ops : List FileOp)
    (h0 : boundary c0) (hops : ∀ ch, FileOp.append ch ∈ ops → boundary ch) :
    ((refresh P (runOps P c0 ops).2 (runOps P c0 ops).1).1).messages
        = ((load P (runOps P c0 ops).1).1).messages
    ∧ ∀ c : FileContent, refresh P (load P c).1 c = ((load P c).1, []) := by
  constructor
  · obtain ⟨hc, done, rest, hcdr, hdone, hst⟩ := inv_runOps P c0 ops h0 hops
    rw [hst, hcdr, refresh_load P done rest hdone]
  · intro c
    simp [refresh, load]

/-- A JSON line that is genuinely valid JSON and genuinely validates against
`MessageSchema` (its `FileHistorySnapshotSchema` branch: guid `messageId`,
boolean `isSnapshotUpdate`, nested snapshot with guid, empty backup record and
ISO timestamp). Brace characters are written with escape codes. -/
def snapLine : String :=
  "\x7b\"type\":\"file-history-snapshot\",\"messageId\":\"123e4567-e89b-12d3-a456-426614174000\",\"isSnapshotUpdate\":false,\"snapshot\":\x7b\"messageId\":\"123e4567-e89b-12d3-a456-426614174000\",\"trackedFileBackups\":\x7b\x7d,\"timestamp\":\"2024-01-01T00:00:00Z\"\x7d\x7d"

/-- The first ten characters of `snapLine` — not valid JSON on its own
(`JSON.parse` throws on a truncated object). -/
def snapFront : FileContent := snapLine.data.take 10

/-- The remainder of `snapLine` — not valid JSON on its own (it starts inside
a string literal, with a bare identifier character). -/
def snapBack : FileContent := snapLine.data.drop 10

/-- The record decoded from `snapLine`. -/
inductive RecSnap where
  | snap
  deriving Repr, DecidableEq

/-- Concrete oracle for the C3 counterexample, faithful to the host primitives
on every line this development feeds it: `JSON.parse` accepts `snapLine`
(which then validates against `MessageSchema` as a snapshot record) and throws
on both fragments `snapFront` and `snapBack`; no other line is queried. -/
def Psnap : ConvModel Unit RecSnap :=
  { jsonDecode := fun l => if l = snapLine.data then some () else none
    validate := fun _ => some RecSnap.snap
    stringify := fun _ => snapLine.data
    isSnapshot := fun _ => true
    uuid := fun _ => ""
    messageId := fun _ => "123e4567-e89b-12d3-a456-426614174000"
    sessionId := fun _ => ""
    isSidechain := fun _ => false }

/-- The byte-append/refresh schedule that splits the record line across a
refresh: append the first fragment, refresh, append the rest plus the line
terminator, refresh. -/
def opsCex : List FileOp :=
  [FileOp.append snapFront, FileOp.refresh,
   FileOp.append (snapBack ++ ['\n']), FileOp.refresh]

/-- C3 counterexample: for the byte-append sequence `opsCex` on an initially
empty file, the final in-memory record sequence (even after a final refresh)
is empty, while a single full parse of the final contents yields one record —
the two fragments each fail `JSON.parse` when read in separate refresh passes,
so the record on the split line is lost. The claim's universally quantified
equivalence is therefore false. -/
theorem C3_counterexample :
    ((runOps Psnap [] opsCex).2).messages = []
    ∧ ((load Psnap ((runOps Psnap [] opsCex).1)).1).messages = [RecSnap.snap]
    ∧ ((runOps Psnap [] opsCex).2).messages
        ≠ ((load Psnap ((runOps Psnap [] opsCex).1)).1).messages := by
  have h1 : ((runOps Psnap [] opsCex).2).messages = [] := rfl
  have h2 : ((load Psnap ((runOps Psnap [] opsCex).1)).1).messages = [RecSnap.snap] := rfl
  refine ⟨h1, h2, ?_⟩
  rw [h1, h2]
  exact fun h => List.noConfusion h

/-- A two-record universe used to instantiate the universally quantified
theorems in witnesses: a snapshot record serialized as "A" and a user record
serialized as "B". -/
inductive RecW where
  | snapA
  | userB
  deriving Repr, DecidableEq

/-- Toy oracle over `RecW` used by witnesses (instantiating theorems that hold
for every oracle). -/
def Pw : ConvModel RecW RecW :=
  { jsonDecode := fun l =>
      if l = ['A'] then some RecW.snapA else if l = ['B'] then some RecW.userB else none
    validate := fun r => some r
    stringify := fun r => match r with | RecW.snapA => ['A'] | RecW.userB => ['B']
    isSnapshot := fun r => match r with | RecW.snapA => true | RecW.userB => false
    uuid := fun r => match r with | RecW.snapA => "" | RecW.userB => "u1"
    messageId := fun r => match r with | RecW.snapA => "m1" | RecW.userB => ""
    sessionId := fun _ => "S1"
    isSidechain := fun _ => false }

/-- C3 witness: `C3_refresh_convergence` at the toy oracle, initial contents
"A\n" and schedule append "B\n" then refresh. -/
theorem C3_witness :
    boundary (['A', '\n'] : FileContent)
    ∧ (∀ ch, FileOp.append ch ∈ [FileOp.append ['B', '\n'], FileOp.refresh] → boundary ch)
    ∧ ((refresh Pw (runOps Pw ['A', '\n'] [FileOp.append ['B', '\n'], FileOp.refresh]).2
          (runOps Pw ['A', '\n'] [FileOp.append ['B', '\n'], FileOp.refresh]).1).1).messages
        = ((load Pw (runOps Pw ['A', '\n'] [FileOp.append ['B', '\n'], FileOp.refresh]).1).1).messages := by
  have hops : ∀ ch, FileOp.append ch ∈ [FileOp.append ['B', '\n'], FileOp.refresh] → boundary ch := by
    intro ch h
    simp only [List.mem_cons, List.not_mem_nil, or_false] at h
    rcases h with h | h
    · injection h with h2
      subst h2
      decide
    · exact FileOp.noConfusion h
  exact ⟨by decide, hops,
    (C3_refresh_convergence Pw ['A', '\n'] _ (by decide) hops).1⟩

/-- The record a single line contributes: `JSON.parse` then
`MessageSchema.safeParse`, `none` when either step fails. -/
def recordOf (P : ConvModel J R) (l : FileContent) : Option R :=
  (P.jsonDecode l).bind P.validate

/-- A single line loop step appends exactly the record the line contributes
(if any) to the record list. -/
theorem processLine_messages (P : ConvModel J R) (st : ConvState R) (l : FileContent) :
    (processLine P st l).messages = st.messages ++ (recordOf P l).toList := by
  unfold processLine recordOf
  split
  next hd => simp [hd]
  next j hd =>
    rw [hd]
    unfold processObject
    split
    next hv => simp [hv]
    next r hv =>
      simp only [Option.some_bind, hv, Option.toList_some]
      split <;> simp

/-- The line loop appends, in order, exactly the records the lines
contribute. -/
theorem runState_messages (P : ConvModel J R) (st : ConvState R) (ls : List FileContent) :
    (runState P st ls).messages = st.messages ++ ls.filterMap (recordOf P) := by
  induction ls generalizing st with
  | nil => simp [runState]
  | cons l ls ih =>
    show (runState P (processLine P st l) ls).messages = _
    rw [ih, processLine_messages]
    cases h : recordOf P l with
    | none => simp [List.filterMap_cons, h]
    | some r => simp [List.filterMap_cons, h]

/-- With `emitNewMessages` unset, the signals are exactly one `parseError` per
line that fails `JSON.parse`, in line order. -/
theorem signalsOf_false (P : ConvModel J R) (ls : List FileContent) :
    signalsOf P false ls
      = ls.filterMap
          (fun l => if (P.jsonDecode l).isNone then some (Signal.parseError l) else none) := by
  induction ls with
  | nil => rfl
  | cons l ls ih =>
    rw [signalsOf]
    cases hd : P.jsonDecode l with
    | none => simp [hd, List.filterMap_cons, ih]
    | some j =>
      cases hv : P.validate j <;> simp [hd, hv, List.filterMap_cons, ih]

/-- A full load yields exactly the per-line records, in line order. -/
theorem load_messages (P : ConvModel J R) (c : FileContent) :
    ((load P c).1).messages = (splitLines c).filterMap (recordOf P) := by
  show (runState P (convInit R) (splitLines c)).messages = _
  rw [runState_messages]
  rfl

/-- A full load signals exactly one `parseError` per line failing
`JSON.parse`, carrying the raw line, in line order. -/
theorem load_signals (P : ConvModel J R) (c : FileContent) :
    (load P c).2
      = (splitLines c).filterMap
          (fun l => if (P.jsonDecode l).isNone then some (Signal.parseError l) else none) :=
  signalsOf_false P (splitLines c)

/-- C4 (amended): during a full parse each line is handled independently — a
line that is not valid JSON (including an empty or whitespace-only line, on
which `JSON.parse` throws) produces exactly one non-fatal parse-error signal
carrying the raw line and contributes no record, parsing continues, and the
record sequence is exactly the per-line records in original order, so an
invalid line anywhere among valid lines never drops or reorders the valid
records around it. -/
theorem C4_line_handling (P : ConvModel J R) (c : FileContent) :
    ((load P c).1).messages = (splitLines c).filterMap (recordOf P)
    ∧ (load P c).2
        = (splitLines c).filterMap
            (fun l => if (P.jsonDecode l).isNone then some (Signal.parseError l) else none) :=
  ⟨load_messages P c, load_signals P c⟩

/-- C4 counterexample: a file consisting of one empty line (the content "\n")
and one whitespace-only line produces a `parseError` signal for each —
`JSON.parse` throws on `""` and on `" "` — rather than being skipped with no
error signal as the claim states (no record is produced, as the claim also
says). -/
theorem C4_counterexample :
    ((load Pw ['\n', ' ', '\n']).1).messages = []
    ∧ (load Pw ['\n', ' ', '\n']).2 = [Signal.parseError [], Signal.parseError [' ']]
    ∧ (load Pw ['\n', ' ', '\n']).2 ≠ [] := by
  refine ⟨rfl, rfl, ?_⟩
  rw [show (load Pw ['\n', ' ', '\n']).2
        = [Signal.parseError [], Signal.parseError [' ']] from rfl]
  exact fun h => List.noConfusion h

/-- Splitting a newline-free line followed by a newline and a remainder
yields that line followed by the remainder's lines. -/
theorem splitLines_line_append {x : FileContent} (r : FileContent) (h : '\n' ∉ x) :
    splitLines (x ++ '\n' :: r) = x :: splitLines r := by
  induction x with
  | nil => rw [List.nil_append, splitLines_cons_newline]
  | cons c cs ih =>
    have hc : c ≠ '\n' := fun he => h (he ▸ List.mem_cons_self c cs)
    have h2 : '\n' ∉ cs := fun hm => h (List.mem_cons_of_mem c hm)
    rw [List.cons_append, splitLines_cons_other hc, ih h2]
    rfl

/-- Joining a list whose first element is nonempty yields a nonempty
content. -/
theorem joinNL_cons_ne_nil {x : FileContent} (xs : List FileContent) (hx : x ≠ []) :
    joinNL (x :: xs) ≠ [] := by
  cases xs with
  | nil => simpa [joinNL] using hx
  | cons y ys => simp [joinNL]

/-- Splitting the newline-join of newline-free lines, terminated by a final
newline, recovers exactly those lines. -/
theorem splitLines_joinNL {ls : List FileContent} (hnl : ∀ x ∈ ls, '\n' ∉ x)
    (hne : ls ≠ []) :
    splitLines (joinNL ls ++ ['\n']) = ls := by
  induction ls with
  | nil => exact absurd rfl hne
  | cons x xs ih =>
    cases xs with
    | nil =>
      show splitLines (x ++ '\n' :: []) = [x]
      rw [splitLines_line_append [] (hnl x (List.mem_cons_self x []))]
      rfl
    | cons y ys =>
      show splitLines ((x ++ '\n' :: joinNL (y :: ys)) ++ ['\n']) = x :: y :: ys
      rw [List.append_assoc, List.cons_append,
        splitLines_line_append _ (hnl x (List.mem_cons_self x (y :: ys))),
        ih (fun z hz => hnl z (List.mem_cons_of_mem x hz)) (List.cons_ne_nil y ys)]

/-- `filterMap` by a function that is `some` on every element is the
identity. -/
theorem filterMap_id_of (f : R → Option R) (l : List R) (h : ∀ x ∈ l, f x = some x) :
    l.filterMap f = l := by
  induction l with
  | nil => rfl
  | cons x xs ih =>
    rw [List.filterMap_cons, h x (List.mem_cons_self x xs)]
    show x :: xs.filterMap f = x :: xs
    rw [ih (fun y hy => h y (List.mem_cons_of_mem x hy))]

/-- `findIndex` over a list with no match is `none`. -/
theorem findIndex_eq_none {p : R → Bool} {l : List R} (h : ∀ x ∈ l, p x = false) :
    findIndex p l = none := by
  induction l with
  | nil => rfl
  | cons x xs ih =>
    simp [findIndex, h x (List.mem_cons_self x xs),
      ih (fun y hy => h y (List.mem_cons_of_mem x hy))]

/-- Re-parsing the rewritten file recovers exactly the remaining records,
provided every record serializes to a nonempty, newline-free line that decodes
and validates back to itself (the `JSON.stringify`/`JSON.parse` round trip). -/
theorem load_written (P : ConvModel J R) (msgs : List R)
    (hne : ∀ r ∈ msgs, P.stringify r ≠ [])
    (hnl : ∀ r ∈ msgs, '\n' ∉ P.stringify r)
    (hrt : ∀ r ∈ msgs, recordOf P (P.stringify r) = some r) :
    ((load P (writtenContent P msgs)).1).messages = msgs := by
  cases msgs with
  | nil => rfl
  | cons m ms =>
    have hj : joinNL ((m :: ms).map P.stringify) ≠ [] := by
      rw [List.map_cons]
      exact joinNL_cons_ne_nil _ (hne m (List.mem_cons_self m ms))
    have hw : writtenContent P (m :: ms)
        = joinNL ((m :: ms).map P.stringify) ++ ['\n'] := by
      unfold writtenContent
      rw [if_neg (by simpa using hj)]
    have hnl2 : ∀ x ∈ (m :: ms).map P.stringify, '\n' ∉ x := by
      intro x hx
      obtain ⟨r, hr, rfl⟩ := List.mem_map.mp hx
      exact hnl r hr
    rw [hw, load_messages, splitLines_joinNL hnl2 (by simp), List.filterMap_map]
    exact filterMap_id_of _ _ (fun r hr => hrt r hr)

/-- C7: `deleteRecord` with an identifier matching no record (snapshots
compared on `messageId`, others on `uuid`) returns `false` and performs no
file write; with a matching identifier it removes exactly the first matching
record, returns `true`, and re-parsing the rewritten file yields the same
record sequence minus that record, in the original order. The round-trip
hypotheses record that `JSON.stringify` of a record is a nonempty single line
that `JSON.parse`/`MessageSchema` map back to the record. -/
theorem C7_deleteRecord (P : ConvModel J R) (st : ConvState R) (id : String)
    (hne : ∀ r ∈ st.messages, P.stringify r ≠ [])
    (hnl : ∀ r ∈ st.messages, '\n' ∉ P.stringify r)
    (hrt : ∀ r ∈ st.messages, recordOf P (P.stringify r) = some r) :
    ((∀ m ∈ st.messages, matchesId P id m = false) → deleteMessage P st id = (false, st, none))
    ∧ ∀ i, findIndex (matchesId P id) st.messages = some i →
        deleteMessage P st id
          = (true,
             { st with
                 messages := st.messages.eraseIdx i
                 byteOffset := (writtenContent P (st.messages.eraseIdx i)).length },
             some (writtenContent P (st.messages.eraseIdx i)))
        ∧ ((load P (writtenContent P (st.messages.eraseIdx i))).1).messages
            = st.messages.eraseIdx i := by
  constructor
  · intro hno
    unfold deleteMessage
    rw [findIndex_eq_none hno]
  · intro i hi
    have hsub : ∀ r ∈ st.messages.eraseIdx i, r ∈ st.messages :=
      fun r hr => (List.eraseIdx_sublist st.messages i).subset hr
    constructor
    · unfold deleteMessage
      rw [hi]
    · exact load_written P _ (fun r hr => hne r (hsub r hr))
        (fun r hr => hnl r (hsub r hr)) (fun r hr => hrt r (hsub r hr))

/-- A concrete loaded conversation over the toy oracle: a snapshot record then
a user record, file "A\nB\n", cursor 4. -/
def stW : ConvState RecW :=
  { messages := [RecW.snapA, RecW.userB]
    byteOffset := 4
    sessionId := some "S1"
    isSidechain := some false }

/-- C7 witness: `C7_deleteRecord` at the toy conversation, deleting the user
record by its uuid "u1". -/
theorem C7_witness :
    (∀ r ∈ stW.messages, Pw.stringify r ≠ [])
    ∧ (∀ r ∈ stW.messages, '\n' ∉ Pw.stringify r)
    ∧ (∀ r ∈ stW.messages, recordOf Pw (Pw.stringify r) = some r)
    ∧ findIndex (matchesId Pw "u1") stW.messages = some 1
    ∧ (deleteMessage Pw stW "u1"
        = (true, { stW with messages := [RecW.snapA], byteOffset := 2 }, some ['A', '\n'])
      ∧ ((load Pw ['A', '\n']).1).messages = [RecW.snapA]) :=
  ⟨by decide, by decide, by decide, by decide,
    (C7_deleteRecord Pw stW "u1" (by decide) (by decide) (by decide)).2 1 (by decide)⟩

/-- C8 counterexample: deleting the snapshot record from the toy conversation
leaves the user record; the file content actually written is "B\n" — the
newline-joined serialization "B" of the remaining records plus a trailing
newline — so the written content does not equal the newline-joined
serialization exactly, contrary to the claim. -/
theorem C8_counterexample :
    (deleteMessage Pw stW "m1").2.2 = some ['B', '\n']
    ∧ joinNL ((stW.messages.eraseIdx 0).map Pw.stringify) = ['B']
    ∧ some (['B', '\n'] : FileContent) ≠ some (['B'] : FileContent) := by
  refine ⟨rfl, rfl, by decide⟩

/-- C8 (amended): after a successful `deleteRecord`, the backing file's
content equals the newline-joined serialization of the remaining records
followed by a terminating newline (or empty content if none remain — this is
`writtenContent`), and the cursor equals the byte length of the written
content, so a subsequent refresh of the unchanged file is a no-op (no
re-reading of known records) and content appended later starts exactly at the
cursor. -/
theorem C8_delete_rewrite (P : ConvModel J R) (st : ConvState R) (id : String) (i : Nat)
    (hi : findIndex (matchesId P id) st.messages = some i) :
    deleteMessage P st id
      = (true,
         { st with
             messages := st.messages.eraseIdx i
             byteOffset := (writtenContent P (st.messages.eraseIdx i)).length },
         some (writtenContent P (st.messages.eraseIdx i)))
    ∧ refresh P (deleteMessage P st id).2.1 (writtenContent P (st.messages.eraseIdx i))
        = ((deleteMessage P st id).2.1, [])
    ∧ ∀ extra : FileContent,
        (writtenContent P (st.messages.eraseIdx i) ++ extra).drop
            ((deleteMessage P st id).2.1.byteOffset)
          = extra := by
  have hd : deleteMessage P st id
      = (true,
         { st with
             messages := st.messages.eraseIdx i
             byteOffset := (writtenContent P (st.messages.eraseIdx i)).length },
         some (writtenContent P (st.messages.eraseIdx i))) := by
    unfold deleteMessage
    rw [hi]
  refine ⟨hd, ?_, ?_⟩
  · rw [hd]
    simp [refresh]
  · intro extra
    rw [hd]
    exact List.drop_left _ _

/-- C8 witness: `C8_delete_rewrite` at the toy conversation, deleting the
snapshot record by its messageId "m1". -/
theorem C8_witness :
    findIndex (matchesId Pw "m1") stW.messages = some 0
    ∧ (deleteMessage Pw stW "m1"
        = (true, { stW with messages := [RecW.userB], byteOffset := 2 }, some ['B', '\n'])
      ∧ refresh Pw (deleteMessage Pw stW "m1").2.1 ['B', '\n']
          = ((deleteMessage Pw stW "m1").2.1, [])
      ∧ ∀ extra : FileContent,
          ((['B', '\n'] : FileContent) ++ extra).drop
              ((deleteMessage Pw stW "m1").2.1.byteOffset)
            = extra) :=
  ⟨by decide, C8_delete_rewrite Pw stW "m1" 0 (by decide)⟩

end CPS
